import Mathlib

/-!
# JTAG remote-bitbang bridge (`csrc/sim_main.cpp`)

A shallow embedding of the simulation harness: the reset sequence, the socket
setup and the serve loop of `main`.  Every access to the Verilated model and
every system call is recorded, in program order, in a trace kept in the
simulator state, so that ordering properties can be stated about the code.

The Verilated model `VTopMain` and the results of the system calls are not
part of the harness; the model is a parameter and the system-call results are
inputs.
-/

namespace SimMain

/-- The listening port, `#define PORT 9823`. -/
def PORT : Nat := 9823

/-- The constant `EXIT_FAILURE` of `stdlib.h`. -/
def EXIT_FAILURE : Int := 1

/-- The input ports of the model that the harness writes. -/
structure Pins where
  clock : Nat
  reset : Nat
  io_jtag_TCK : Nat
  io_jtag_TMS : Nat
  io_jtag_TDI : Nat
deriving DecidableEq, Repr

/-- The Verilated model, an external collaborator of the harness.  `σ` is the
internal state of the model together with its output ports; outputs change
only in `eval`, which reads the input ports.  `gotFinish` is the flag of
`Verilated::gotFinish()`, which only the model can raise, while evaluating. -/
structure VTopMain (σ : Type) where
  init : σ
  initPins : Pins
  eval : Pins → σ → σ
  io_jtag_TDO : σ → Nat
  io_led1 : σ → Nat
  io_led2 : σ → Nat
  gotFinish : σ → Bool

/-- The messages of `perror`: "socket failed", "setsockopt", "bind failed",
"listen", "accept". -/
inductive Perror
  | socket_failed
  | setsockopt
  | bind_failed
  | listen
  | accept
deriving DecidableEq, Repr

/-- The messages of `printf`, in the order they appear in the source. -/
inductive Log
  | waiting (port : Nat)
  | connected
  | initial_led (led1 led2 : Nat)
  | connection_closed
  | reconnected
  | led_update (led1 led2 : Nat)
deriving DecidableEq, Repr

/-- One observable action of the harness. -/
inductive Ev
  | w_clock (v : Nat)
  | w_reset (v : Nat)
  | w_TCK (v : Nat)
  | w_TMS (v : Nat)
  | w_TDI (v : Nat)
  | eval (p : Pins)
  | final
  | delete
  | socket (ret : Int)
  | setsockopt (fd ret : Int)
  | bind (fd ret : Int)
  | listen (fd ret : Int)
  | accept (fd ret : Int)
  | read (fd valread : Int) (byte : Nat)
  | send (fd : Int) (byte : Nat) (ret : Int)
  | close (fd : Int)
  | perror (m : Perror)
  | printf (m : Log)
  | exit (code : Int)
deriving DecidableEq, Repr

/-- The globals of the program (`top`, `main_time`, `server_fd`,
`new_socket`), the two locals of `main` that outlive an iteration, and the
trace of actions performed so far. -/
structure Sim (σ : Type) where
  pins : Pins
  top : σ
  main_time : Nat
  server_fd : Int
  new_socket : Int
  prev_led1 : Nat
  prev_led2 : Nat
  trace : List Ev

/-- Results of the system calls of `setup_socket`, in call order. -/
structure SetupEnv where
  socket : Int
  setsockopt : Int
  bind : Int
  listen : Int
  accept : Int
deriving DecidableEq, Repr

/-- What the environment answers during one iteration of the serve loop: the
result of `read` and the byte it stored in `buffer[0]` (meaningful when
`valread > 0`), the result of the re-`accept` (used on the disconnect path)
and the result of `send` (used for `'R'`). -/
structure Iter where
  valread : Int
  byte : Nat
  accept : Int
  send : Int
deriving DecidableEq, Repr

/-- How one iteration of the loop body ends: fall through to the loop test
(also `continue`), `break`, or `exit(code)`. -/
inductive Ctl
  | next
  | brk
  | exit (code : Int)
deriving DecidableEq, Repr

/-- How the serve loop ends on a finite script of answers: the loop was left
(`break` or a false loop test), the process exited, or the loop is blocked
in `read` because the script has no further answer. -/
inductive LoopEnd
  | left
  | exited (code : Int)
  | blocked
deriving DecidableEq, Repr

/-- How `main` ends: `return code`, `exit(code)`, or blocked in `read`. -/
inductive Outcome
  | returned (code : Int)
  | exited (code : Int)
  | blocked
deriving DecidableEq, Repr

variable {σ : Type}

/-- Append one action to the trace. -/
def emit (e : Ev) (s : Sim σ) : Sim σ :=
  { s with trace := s.trace ++ [e] }

/-- The assignment `top->clock = v;` -/
def set_clock (v : Nat) (s : Sim σ) : Sim σ :=
  emit (.w_clock v) { s with pins := { s.pins with clock := v } }

/-- The assignment `top->reset = v;` -/
def set_reset (v : Nat) (s : Sim σ) : Sim σ :=
  emit (.w_reset v) { s with pins := { s.pins with reset := v } }

/-- The assignment `top->io_jtag_TCK = v;` -/
def set_TCK (v : Nat) (s : Sim σ) : Sim σ :=
  emit (.w_TCK v) { s with pins := { s.pins with io_jtag_TCK := v } }

/-- The assignment `top->io_jtag_TMS = v;` -/
def set_TMS (v : Nat) (s : Sim σ) : Sim σ :=
  emit (.w_TMS v) { s with pins := { s.pins with io_jtag_TMS := v } }

/-- The assignment `top->io_jtag_TDI = v;` -/
def set_TDI (v : Nat) (s : Sim σ) : Sim σ :=
  emit (.w_TDI v) { s with pins := { s.pins with io_jtag_TDI := v } }

/-- The call `top->eval();` in which the model reads the current input ports. -/
def eval (M : VTopMain σ) (s : Sim σ) : Sim σ :=
  emit (.eval s.pins) { s with top := M.eval s.pins s.top }

/-- The increment `main_time++;` on a `vluint64_t`. -/
def inc_time (s : Sim σ) : Sim σ :=
  { s with main_time := (s.main_time + 1) % 2 ^ 64 }

/-- The function `tick()`: one full cycle of the system clock. -/
def tick (M : VTopMain σ) (s : Sim σ) : Sim σ :=
  let s := set_clock 0 s
  let s := eval M s
  let s := inc_time s
  let s := set_clock 1 s
  let s := eval M s
  inc_time s

/-- The loop `for (int i = 0; i < n; i++) tick();` -/
def ticks (M : VTopMain σ) : Nat → Sim σ → Sim σ
  | 0, s => s
  | n + 1, s => ticks M n (tick M s)

/-- The statements `perror(m); exit(EXIT_FAILURE);` -/
def fail (m : Perror) (s : Sim σ) : Sim σ × Option Int :=
  (emit (.exit EXIT_FAILURE) (emit (.perror m) s), some EXIT_FAILURE)

/-- The function `setup_socket()`.  The result is `some code` when the process
exited. -/
def setup_socket (env : SetupEnv) (s : Sim σ) : Sim σ × Option Int :=
  let s := emit (.socket env.socket) { s with server_fd := env.socket }
  if s.server_fd = 0 then fail .socket_failed s
  else
    let s := emit (.setsockopt s.server_fd env.setsockopt) s
    if env.setsockopt ≠ 0 then fail .setsockopt s
    else
      let s := emit (.bind s.server_fd env.bind) s
      if env.bind < 0 then fail .bind_failed s
      else
        let s := emit (.listen s.server_fd env.listen) s
        if env.listen < 0 then fail .listen s
        else
          let s := emit (.printf (.waiting PORT)) s
          let s := emit (.accept s.server_fd env.accept) { s with new_socket := env.accept }
          if s.new_socket < 0 then fail .accept s
          else (emit (.printf .connected) s, none)

/-- The body of the `while` loop of `main`, for one answer of the
environment.  Command bytes are compared with ASCII constants below 128, so
the signedness of `char` does not matter and `cmd` is the byte value. -/
def body (M : VTopMain σ) (it : Iter) (s : Sim σ) : Sim σ × Ctl :=
  let s := emit (.read s.new_socket it.valread it.byte) s
  if it.valread ≤ 0 then
    let s := emit (.printf .connection_closed) s
    let s := emit (.close s.new_socket) s
    let s := emit (.accept s.server_fd it.accept) { s with new_socket := it.accept }
    if s.new_socket < 0 then
      (emit (.exit EXIT_FAILURE) (emit (.perror .accept) s), .exit EXIT_FAILURE)
    else (emit (.printf .reconnected) s, .next)
  else
    let cmd := it.byte
    if 48 ≤ cmd ∧ cmd ≤ 55 then
      let val := cmd - 48
      let s := set_TDI ((val >>> 0) &&& 1) s
      let s := set_TMS ((val >>> 1) &&& 1) s
      let s := set_TCK ((val >>> 2) &&& 1) s
      let s := eval M s
      if M.io_led1 s.top ≠ s.prev_led1 ∨ M.io_led2 s.top ≠ s.prev_led2 then
        let s := emit (.printf (.led_update (M.io_led1 s.top) (M.io_led2 s.top))) s
        ({ s with prev_led1 := M.io_led1 s.top % 256, prev_led2 := M.io_led2 s.top % 256 }, .next)
      else (s, .next)
    else if cmd = 82 then
      let tdo := if M.io_jtag_TDO s.top ≠ 0 then 49 else 48
      (emit (.send s.new_socket tdo it.send) s, .next)
    else if cmd = 81 then (s, .brk)
    else if cmd = 66 ∨ cmd = 98 then (s, .next)
    else if cmd = 114 ∨ cmd = 115 then (s, .next)
    else (s, .next)

/-- The loop `while (!Verilated::gotFinish())` of `main`, run against a finite script of
answers. -/
def serve_loop (M : VTopMain σ) : List Iter → Sim σ → Sim σ × LoopEnd
  | [], s => if M.gotFinish s.top then (s, .left) else (s, .blocked)
  | it :: rest, s =>
    if M.gotFinish s.top then (s, .left)
    else
      match body M it s with
      | (s, .next) => serve_loop M rest s
      | (s, .brk) => (s, .left)
      | (s, .exit c) => (s, .exited c)

/-- The state after `top = new VTopMain;` with the zero-initialised globals. -/
def boot (M : VTopMain σ) : Sim σ :=
  { pins := M.initPins, top := M.init, main_time := 0, server_fd := 0, new_socket := 0,
    prev_led1 := 0, prev_led2 := 0, trace := [] }

/-- The reset sequence at the start of `main`. -/
def reset_sequence (M : VTopMain σ) : Sim σ :=
  let s := boot M
  let s := set_reset 1 s
  let s := set_TCK 0 s
  let s := set_TMS 1 s
  let s := set_TDI 0 s
  let s := ticks M 10 s
  set_reset 0 s

/-- The two `prev_led` initialisations and the first `printf` of `main`. -/
def observe_leds (M : VTopMain σ) (s : Sim σ) : Sim σ :=
  let s := { s with prev_led1 := M.io_led1 s.top % 256, prev_led2 := M.io_led2 s.top % 256 }
  emit (.printf (.initial_led s.prev_led1 s.prev_led2)) s

/-- The end of `main`: `top->final(); delete top; return 0;` -/
def shutdown (s : Sim σ) : Sim σ :=
  emit .delete (emit .final s)

/-- The function `main`. -/
def main (M : VTopMain σ) (env : SetupEnv) (its : List Iter) : Sim σ × Outcome :=
  let s := reset_sequence M
  match setup_socket env s with
  | (s, some c) => (s, .exited c)
  | (s, none) =>
    let s := observe_leds M s
    match serve_loop M its s with
    | (s, .left) => (shutdown s, .returned 0)
    | (s, .exited c) => (s, .exited c)
    | (s, .blocked) => (s, .blocked)

/-! ## Observations on traces -/

/-- The input ports seen by each `eval`, in order. -/
def evalLog : List Ev → List Pins
  | [] => []
  | .eval p :: t => p :: evalLog t
  | _ :: t => evalLog t

/-- The bytes handed to `send`, in order. -/
def sentBytes : List Ev → List Nat
  | [] => []
  | .send _ b _ :: t => b :: sentBytes t
  | _ :: t => sentBytes t

/-- The results of the `read` calls, in order. -/
def readLog : List Ev → List (Int × Nat)
  | [] => []
  | .read _ v b :: t => (v, b) :: readLog t
  | _ :: t => readLog t

/-- Whether an action is a socket system call. -/
def isSocketCall : Ev → Bool
  | .socket _ => true
  | .setsockopt _ _ => true
  | .bind _ _ => true
  | .listen _ _ => true
  | .accept _ _ => true
  | .read _ _ _ => true
  | .send _ _ _ => true
  | .close _ => true
  | _ => false

/-- Whether an action is a call of `send`. -/
def isSend : Ev → Bool
  | .send _ _ _ => true
  | _ => false

/-- Whether an action touches the model (a port write, `eval`, `final`,
`delete`). -/
def isDeviceAccess : Ev → Bool
  | .w_clock _ => true
  | .w_reset _ => true
  | .w_TCK _ => true
  | .w_TMS _ => true
  | .w_TDI _ => true
  | .eval _ => true
  | .final => true
  | .delete => true
  | _ => false

/-- Whether the answer is a successfully read signal-set byte `'0'..'7'`. -/
def isSignalSet (it : Iter) : Bool :=
  decide (0 < it.valread) && decide (48 ≤ it.byte) && decide (it.byte ≤ 55)

/-- The (TCK, TMS, TDI) part of the input ports. -/
def jtagTriple (p : Pins) : Nat × Nat × Nat :=
  (p.io_jtag_TCK, p.io_jtag_TMS, p.io_jtag_TDI)

/-! ## Auxiliary definitions for the statements -/

/-- The input ports after the three writes of a signal-set byte. -/
def pinsAfter (p : Pins) (b : Nat) : Pins :=
  { p with
    io_jtag_TDI := ((b - 48) >>> 0) &&& 1
    io_jtag_TMS := ((b - 48) >>> 1) &&& 1
    io_jtag_TCK := ((b - 48) >>> 2) &&& 1 }

/-- The `printf` of the LED check after an evaluation, if any. -/
def ledLog (M : VTopMain σ) (top : σ) (prev1 prev2 : Nat) : List Ev :=
  if M.io_led1 top ≠ prev1 ∨ M.io_led2 top ≠ prev2 then
    [.printf (.led_update (M.io_led1 top) (M.io_led2 top))]
  else []

/-- The response byte of `'R'`: `top->io_jtag_TDO ? '1' : '0'`. -/
def tdoChar (M : VTopMain σ) (top : σ) : Nat :=
  if M.io_jtag_TDO top ≠ 0 then 49 else 48

/-- The actions of a run of successfully read commands none of which is a
signal-set byte or `'Q'`, on session `fd` with response byte `c`. -/
def quietTrace (fd : Int) (c : Nat) : List Iter → List Ev
  | [] => []
  | it :: rest =>
    (.read fd it.valread it.byte ::
      (if it.byte = 82 then [.send fd c it.send] else [])) ++ quietTrace fd c rest

/-- A command that is successfully read and is neither `'0'..'7'` nor `'Q'`. -/
def Quiet (it : Iter) : Prop :=
  0 < it.valread ∧ ¬ (48 ≤ it.byte ∧ it.byte ≤ 55) ∧ it.byte ≠ 81

/-- The list made of `n` copies of a list of actions, one after the other. -/
def repeatEv : Nat → List Ev → List Ev
  | 0, _ => []
  | n + 1, l => l ++ repeatEv n l

/-- The actions of one system-clock cycle during reset: `clock = 0`, evaluate,
`clock = 1`, evaluate, with reset high and `TCK = 0`, `TMS = 1`, `TDI = 0`. -/
def resetCycle : List Ev :=
  [.w_clock 0, .eval ⟨0, 1, 0, 1, 0⟩, .w_clock 1, .eval ⟨1, 1, 0, 1, 0⟩]

/-! ## Two small models for closed examples -/

/-- A model whose `TDO` shows the `TDI` of the last evaluation with reset low
and which never finishes. -/
def loopbackDev : VTopMain Nat :=
  { init := 0
    initPins := ⟨0, 0, 0, 0, 0⟩
    eval := fun p _ => if p.reset = 0 then p.io_jtag_TDI else 0
    io_jtag_TDO := fun st => st
    io_led1 := fun _ => 0
    io_led2 := fun _ => 0
    gotFinish := fun _ => false }

/-- A model that raises the finish flag when evaluated with `TCK` high. -/
def finishingDev : VTopMain Bool :=
  { init := false
    initPins := ⟨0, 0, 0, 0, 0⟩
    eval := fun p st => st || decide (p.io_jtag_TCK = 1)
    io_jtag_TDO := fun _ => 0
    io_led1 := fun _ => 0
    io_led2 := fun _ => 0
    gotFinish := fun st => st }

/-- System-call results of a successful setup: descriptors 3 and 4. -/
def okEnv : SetupEnv := ⟨3, 0, 0, 0, 4⟩

/-- A successfully read command byte. -/
def cmdByte (b : Nat) : Iter := ⟨1, b, 0, 1⟩

/-- A disconnect (`read` returns 0) followed by a re-accept returning `fd`. -/
def hangup (fd : Int) : Iter := ⟨0, 0, fd, 0⟩

/-! ## The loop body, case by case -/

theorem evalLog_append (a b : List Ev) : evalLog (a ++ b) = evalLog a ++ evalLog b := by
  induction a with
  | nil => rfl
  | cons e t ih => cases e <;> simp [evalLog, ih]

theorem sentBytes_append (a b : List Ev) : sentBytes (a ++ b) = sentBytes a ++ sentBytes b := by
  induction a with
  | nil => rfl
  | cons e t ih => cases e <;> simp [sentBytes, ih]

theorem readLog_append (a b : List Ev) : readLog (a ++ b) = readLog a ++ readLog b := by
  induction a with
  | nil => rfl
  | cons e t ih => cases e <;> simp [readLog, ih]

theorem body_hangup_ok (M : VTopMain σ) (it : Iter) (s : Sim σ)
    (hv : it.valread ≤ 0) (ha : 0 ≤ it.accept) :
    body M it s =
      ({ s with
          new_socket := it.accept
          trace := s.trace ++
            [.read s.new_socket it.valread it.byte, .printf .connection_closed,
             .close s.new_socket, .accept s.server_fd it.accept, .printf .reconnected] },
       .next) := by
  have ha' : ¬ it.accept < 0 := not_lt.mpr ha
  simp [body, emit, hv, ha']

theorem body_hangup_fail (M : VTopMain σ) (it : Iter) (s : Sim σ)
    (hv : it.valread ≤ 0) (ha : it.accept < 0) :
    body M it s =
      ({ s with
          new_socket := it.accept
          trace := s.trace ++
            [.read s.new_socket it.valread it.byte, .printf .connection_closed,
             .close s.new_socket, .accept s.server_fd it.accept, .perror .accept,
             .exit EXIT_FAILURE] },
       .exit EXIT_FAILURE) := by
  simp [body, emit, hv, ha]

theorem body_set (M : VTopMain σ) (it : Iter) (s : Sim σ)
    (hv : 0 < it.valread) (h0 : 48 ≤ it.byte) (h7 : it.byte ≤ 55) :
    (body M it s).2 = .next ∧
    (body M it s).1.pins = pinsAfter s.pins it.byte ∧
    (body M it s).1.top = M.eval (pinsAfter s.pins it.byte) s.top ∧
    (body M it s).1.main_time = s.main_time ∧
    (body M it s).1.server_fd = s.server_fd ∧
    (body M it s).1.new_socket = s.new_socket ∧
    (body M it s).1.trace = s.trace ++
      [.read s.new_socket it.valread it.byte,
       .w_TDI (((it.byte - 48) >>> 0) &&& 1),
       .w_TMS (((it.byte - 48) >>> 1) &&& 1),
       .w_TCK (((it.byte - 48) >>> 2) &&& 1),
       .eval (pinsAfter s.pins it.byte)] ++
      ledLog M (M.eval (pinsAfter s.pins it.byte) s.top) s.prev_led1 s.prev_led2 := by
  have hv' : ¬ it.valread ≤ 0 := not_le.mpr hv
  simp only [body, hv', h0, h7, if_false, and_self, if_true]
  split <;> rename_i hled <;>
    simp [emit, set_TDI, set_TMS, set_TCK, eval, pinsAfter, ledLog] at hled ⊢ <;>
    simp [hled]

theorem body_R (M : VTopMain σ) (it : Iter) (s : Sim σ)
    (hv : 0 < it.valread) (hb : it.byte = 82) :
    body M it s =
      ({ s with
          trace := s.trace ++
            [.read s.new_socket it.valread it.byte,
             .send s.new_socket (if M.io_jtag_TDO s.top ≠ 0 then 49 else 48) it.send] },
       .next) := by
  have hv' : ¬ it.valread ≤ 0 := not_le.mpr hv
  simp [body, emit, hv', hb]

theorem body_Q (M : VTopMain σ) (it : Iter) (s : Sim σ)
    (hv : 0 < it.valread) (hb : it.byte = 81) :
    body M it s =
      ({ s with trace := s.trace ++ [.read s.new_socket it.valread it.byte] }, .brk) := by
  have hv' : ¬ it.valread ≤ 0 := not_le.mpr hv
  simp [body, emit, hv', hb]

theorem body_other (M : VTopMain σ) (it : Iter) (s : Sim σ)
    (hv : 0 < it.valread) (hd : ¬ (48 ≤ it.byte ∧ it.byte ≤ 55))
    (hr : it.byte ≠ 82) (hq : it.byte ≠ 81) :
    body M it s =
      ({ s with trace := s.trace ++ [.read s.new_socket it.valread it.byte] }, .next) := by
  have hv' : ¬ it.valread ≤ 0 := not_le.mpr hv
  simp only [body, hv', hd, hr, hq, if_false]
  split <;> [rfl; (split <;> rfl)]

theorem body_quiet (M : VTopMain σ) (it : Iter) (s : Sim σ) (h : Quiet it) :
    body M it s =
      ({ s with trace := s.trace ++ quietTrace s.new_socket (tdoChar M s.top) [it] }, .next) := by
  obtain ⟨hv, hd, hq⟩ := h
  by_cases hr : it.byte = 82
  · rw [body_R M it s hv hr]; simp [quietTrace, hr, tdoChar]
  · rw [body_other M it s hv hd hr hq]; simp [quietTrace, hr]

theorem serve_loop_quiet (M : VTopMain σ) (its : List Iter) :
    ∀ s : Sim σ, M.gotFinish s.top = false → (∀ it ∈ its, Quiet it) →
      serve_loop M its s =
        ({ s with trace := s.trace ++ quietTrace s.new_socket (tdoChar M s.top) its },
         .blocked) := by
  induction its with
  | nil => intro s hfin _; simp [serve_loop, hfin, quietTrace]
  | cons it rest ih =>
    intro s hfin h
    have hit : Quiet it := h it (List.mem_cons_self _ _)
    have hrest : ∀ r ∈ rest, Quiet r := fun r hr => h r (List.mem_cons_of_mem _ hr)
    simp only [serve_loop, hfin, body_quiet M it s hit, Bool.false_eq_true, if_false]
    rw [ih]
    · simp [quietTrace]
    · exact hfin
    · exact hrest

theorem evalLog_quietTrace (fd : Int) (c : Nat) (its : List Iter) :
    evalLog (quietTrace fd c its) = [] := by
  induction its with
  | nil => rfl
  | cons it rest ih =>
    by_cases hr : it.byte = 82 <;> simp [quietTrace, evalLog, hr, ih]

theorem deviceAccess_quietTrace (fd : Int) (c : Nat) (its : List Iter) :
    (quietTrace fd c its).filter isDeviceAccess = [] := by
  induction its with
  | nil => rfl
  | cons it rest ih =>
    by_cases hr : it.byte = 82 <;> simp [quietTrace, isDeviceAccess, hr, ih]

theorem sentBytes_quietTrace (fd : Int) (c : Nat) (its : List Iter) :
    sentBytes (quietTrace fd c its) =
      List.replicate (its.countP (fun it => decide (it.byte = 82))) c := by
  induction its with
  | nil => rfl
  | cons it rest ih =>
    by_cases hr : it.byte = 82
    · simp [quietTrace, sentBytes, hr, ih, List.replicate_succ]
    · simp [quietTrace, sentBytes, hr, ih]

theorem socketCall_quietTrace (fd : Int) (c : Nat) (its : List Iter) :
    (quietTrace fd c its).filter isSocketCall = quietTrace fd c its := by
  induction its with
  | nil => rfl
  | cons it rest ih =>
    by_cases hr : it.byte = 82 <;> simp [quietTrace, isSocketCall, hr, ih]

/-! ## Command decoding and read-back -/

/-- C1: a successfully read byte `b` in `'0'..'7'` makes the loop body write
`TDI = (b-'0') & 1`, then `TMS = ((b-'0') >> 1) & 1`, then
`TCK = ((b-'0') >> 2) & 1`, and then evaluate the model exactly once, on
ports that carry all three new values; nothing but the optional LED log line
follows, and the loop goes on. -/
theorem signal_set_writes_then_single_eval (M : VTopMain σ) (it : Iter) (s : Sim σ)
    (hv : 0 < it.valread) (h0 : 48 ≤ it.byte) (h7 : it.byte ≤ 55) :
    let tdi := (it.byte - 48) &&& 1
    let tms := ((it.byte - 48) >>> 1) &&& 1
    let tck := ((it.byte - 48) >>> 2) &&& 1
    let p : Pins := { s.pins with io_jtag_TDI := tdi, io_jtag_TMS := tms, io_jtag_TCK := tck }
    (body M it s).2 = .next ∧
    (body M it s).1.pins = p ∧
    (body M it s).1.top = M.eval p s.top ∧
    (body M it s).1.trace = s.trace ++
      [.read s.new_socket it.valread it.byte, .w_TDI tdi, .w_TMS tms, .w_TCK tck, .eval p] ++
      ledLog M (M.eval p s.top) s.prev_led1 s.prev_led2 ∧
    evalLog (body M it s).1.trace = evalLog s.trace ++ [p] := by
  intro tdi tms tck p
  obtain ⟨h1, h2, h3, _, _, _, h7⟩ := body_set M it s hv h0 h7
  have hp : pinsAfter s.pins it.byte = p := by
    simp [pinsAfter, p, tdi, tms, tck]
  rw [hp] at h2 h3 h7
  refine ⟨h1, h2, h3, ?_, ?_⟩
  · rw [h7]; simp [tdi, tms, tck]
  · rw [h7]
    simp only [evalLog_append]
    unfold ledLog
    split <;> simp [evalLog]

/-- C1 at `'5'`: the ports become `TDI = 1`, `TMS = 0`, `TCK = 1`, and that is
what the single evaluation sees. -/
theorem signal_set_writes_then_single_eval_witness :
    (body loopbackDev (cmdByte 53) (main loopbackDev okEnv []).1).1.pins = ⟨1, 0, 1, 0, 1⟩ ∧
    evalLog (body loopbackDev (cmdByte 53) (main loopbackDev okEnv []).1).1.trace =
      evalLog (main loopbackDev okEnv []).1.trace ++ [⟨1, 0, 1, 0, 1⟩] :=
  have h := signal_set_writes_then_single_eval loopbackDev (cmdByte 53)
    (main loopbackDev okEnv []).1 (by decide) (by decide) (by decide)
  ⟨h.2.1, h.2.2.2.2⟩

/-- C2: processing a successfully read command byte calls `send` exactly
once when the command is `'R'`, on the client socket `new_socket`, right after
the `read`, with the one byte `'1'` if the model's `TDO` is nonzero and `'0'`
if it is zero; for any other command there is no `send` at all. -/
theorem response_bytes (M : VTopMain σ) (it : Iter) (s : Sim σ) (hv : 0 < it.valread) :
    (body M it s).1.trace.filter isSend =
      s.trace.filter isSend ++
        (if it.byte = 82 then
          [.send s.new_socket (if M.io_jtag_TDO s.top ≠ 0 then 49 else 48) it.send]
        else []) ∧
    sentBytes (body M it s).1.trace =
      sentBytes s.trace ++
        (if it.byte = 82 then [if M.io_jtag_TDO s.top ≠ 0 then 49 else 48] else []) ∧
    (it.byte = 82 →
      (body M it s).1.trace = s.trace ++
        [.read s.new_socket it.valread it.byte,
         .send s.new_socket (if M.io_jtag_TDO s.top ≠ 0 then 49 else 48) it.send] ∧
      (body M it s).1.new_socket = s.new_socket) := by
  by_cases hd : 48 ≤ it.byte ∧ it.byte ≤ 55
  · have hr : it.byte ≠ 82 := by omega
    obtain ⟨_, _, _, _, _, _, ht⟩ := body_set M it s hv hd.1 hd.2
    rw [ht]
    refine ⟨?_, ?_, fun h => absurd h hr⟩
    · simp only [List.filter_append, hr, if_false]
      unfold ledLog
      split <;> simp [isSend]
    · simp only [sentBytes_append, hr, if_false]
      unfold ledLog
      split <;> simp [sentBytes]
  · by_cases hq : it.byte = 81
    · rw [body_Q M it s hv hq]
      simp [sentBytes_append, sentBytes, List.filter_append, isSend, hq]
    · by_cases hr : it.byte = 82
      · rw [body_R M it s hv hr]
        simp [sentBytes_append, sentBytes, List.filter_append, isSend, hr]
      · rw [body_other M it s hv hd hr hq]
        simp [sentBytes_append, sentBytes, List.filter_append, isSend, hr]

/-- C2 on the loopback model: after `'1'` the answer to `'R'` is the one byte
`'1'`, sent on the client socket 4 right after the `read`. -/
theorem response_bytes_witness :
    sentBytes (body loopbackDev (cmdByte 82) (main loopbackDev okEnv [cmdByte 49]).1).1.trace
      = [49] ∧
    (body loopbackDev (cmdByte 82) (main loopbackDev okEnv [cmdByte 49]).1).1.trace =
      (main loopbackDev okEnv [cmdByte 49]).1.trace ++ [.read 4 1 82, .send 4 49 1] :=
  have h := response_bytes loopbackDev (cmdByte 82) (main loopbackDev okEnv [cmdByte 49]).1
    (by decide)
  ⟨h.2.1, (h.2.2 rfl).1⟩

/-- C3: a successfully read command that is neither `'0'..'7'` nor `'Q'`
does nothing but the `read` itself and, for `'R'`, the `send` of the response
on the same session socket: it writes no input port, evaluates nothing, makes
no other socket call (no `close`, no `accept`), and the loop goes on with the
same session.  A run of such commands leaves the model untouched and the loop
waiting in `read` on the same session, its actions being only those reads and
sends, and every `'R'` in it is answered with the same byte. -/
theorem quiet_commands_no_device_effect (M : VTopMain σ) (it : Iter) (rest : List Iter)
    (s : Sim σ) (hfin : M.gotFinish s.top = false)
    (hv : 0 < it.valread) (hd : ¬ (48 ≤ it.byte ∧ it.byte ≤ 55)) (hq : it.byte ≠ 81)
    (hrest : ∀ r ∈ rest, 0 < r.valread ∧ ¬ (48 ≤ r.byte ∧ r.byte ≤ 55) ∧ r.byte ≠ 81) :
    ((body M it s).2 = .next ∧
      (body M it s).1.pins = s.pins ∧
      (body M it s).1.top = s.top ∧
      (body M it s).1.new_socket = s.new_socket ∧
      (body M it s).1.server_fd = s.server_fd ∧
      (body M it s).1.trace.filter isDeviceAccess = s.trace.filter isDeviceAccess ∧
      M.gotFinish (body M it s).1.top = false ∧
      (body M it s).1.trace = s.trace ++
        (.read s.new_socket it.valread it.byte ::
          (if it.byte = 82 then
            [.send s.new_socket (if M.io_jtag_TDO s.top ≠ 0 then 49 else 48) it.send]
          else [])) ∧
      (body M it s).1.trace.filter isSocketCall = s.trace.filter isSocketCall ++
        (.read s.new_socket it.valread it.byte ::
          (if it.byte = 82 then
            [.send s.new_socket (if M.io_jtag_TDO s.top ≠ 0 then 49 else 48) it.send]
          else []))) ∧
    ((serve_loop M (it :: rest) s).2 = .blocked ∧
      (serve_loop M (it :: rest) s).1.pins = s.pins ∧
      (serve_loop M (it :: rest) s).1.top = s.top ∧
      (serve_loop M (it :: rest) s).1.new_socket = s.new_socket ∧
      evalLog (serve_loop M (it :: rest) s).1.trace = evalLog s.trace ∧
      (serve_loop M (it :: rest) s).1.trace.filter isDeviceAccess =
        s.trace.filter isDeviceAccess ∧
      sentBytes (serve_loop M (it :: rest) s).1.trace =
        sentBytes s.trace ++
          List.replicate ((it :: rest).countP (fun r => decide (r.byte = 82)))
            (if M.io_jtag_TDO s.top ≠ 0 then 49 else 48) ∧
      (serve_loop M (it :: rest) s).1.trace =
        s.trace ++
          quietTrace s.new_socket (if M.io_jtag_TDO s.top ≠ 0 then 49 else 48) (it :: rest) ∧
      (serve_loop M (it :: rest) s).1.trace.filter isSocketCall =
        s.trace.filter isSocketCall ++
          quietTrace s.new_socket (if M.io_jtag_TDO s.top ≠ 0 then 49 else 48) (it :: rest) ∧
      (serve_loop M (it :: rest) s).1.server_fd = s.server_fd) := by
  have hit : Quiet it := ⟨hv, hd, hq⟩
  have hall : ∀ r ∈ it :: rest, Quiet r := by
    intro r hr
    rcases List.mem_cons.mp hr with h | h
    · exact h ▸ hit
    · exact hrest r h
  constructor
  · rw [body_quiet M it s hit]
    refine ⟨rfl, rfl, rfl, rfl, rfl, ?_, hfin, ?_, ?_⟩
    · simp [List.filter_append, deviceAccess_quietTrace]
    · simp [quietTrace, tdoChar]
    · simp only [List.filter_append, socketCall_quietTrace]
      simp [quietTrace, tdoChar]
  · rw [serve_loop_quiet M (it :: rest) s hfin hall]
    refine ⟨rfl, rfl, rfl, rfl, ?_, ?_, ?_, rfl, ?_, rfl⟩
    · simp [evalLog_append, evalLog_quietTrace]
    · simp [List.filter_append, deviceAccess_quietTrace]
    · simp only [sentBytes_append, sentBytes_quietTrace]; rfl
    · simp only [List.filter_append, socketCall_quietTrace]; rfl

/-- C3 on the loopback model: after `'1'`, the run `R b R s R` sends `'1'`
three times on session 4, makes no socket call other than its reads and
sends, and leaves the ports as `'1'` set them. -/
theorem quiet_commands_no_device_effect_witness :
    sentBytes (serve_loop loopbackDev
        [cmdByte 82, cmdByte 98, cmdByte 82, cmdByte 115, cmdByte 82]
        (main loopbackDev okEnv [cmdByte 49]).1).1.trace = [49, 49, 49] ∧
    (serve_loop loopbackDev
        [cmdByte 82, cmdByte 98, cmdByte 82, cmdByte 115, cmdByte 82]
        (main loopbackDev okEnv [cmdByte 49]).1).1.pins = ⟨1, 0, 0, 0, 1⟩ ∧
    (serve_loop loopbackDev
        [cmdByte 82, cmdByte 98, cmdByte 82, cmdByte 115, cmdByte 82]
        (main loopbackDev okEnv [cmdByte 49]).1).1.trace =
      (main loopbackDev okEnv [cmdByte 49]).1.trace ++
        [.read 4 1 82, .send 4 49 1, .read 4 1 98, .read 4 1 82, .send 4 49 1,
         .read 4 1 115, .read 4 1 82, .send 4 49 1] :=
  have h := quiet_commands_no_device_effect loopbackDev (cmdByte 82)
    [cmdByte 98, cmdByte 82, cmdByte 115, cmdByte 82]
    (main loopbackDev okEnv [cmdByte 49]).1 rfl (by decide) (by decide) (by decide)
    (by decide)
  ⟨h.2.2.2.2.2.2.2.1, h.2.2.1, h.2.2.2.2.2.2.2.2.1⟩

/-! ## Startup and socket setup -/

theorem setup_socket_trace (env : SetupEnv) (s : Sim σ) :
    ∃ l, (setup_socket env s).1.trace = s.trace ++ .socket env.socket :: l := by
  unfold setup_socket
  simp only [fail, emit]
  repeat' split
  all_goals
    simp only [List.append_assoc, List.singleton_append, List.cons_append, List.nil_append]
    exact ⟨_, rfl⟩

theorem body_trace (M : VTopMain σ) (it : Iter) (s : Sim σ) :
    ∃ l, (body M it s).1.trace = s.trace ++ .read s.new_socket it.valread it.byte :: l ∧
      readLog l = [] ∧ l.count .final = 0 := by
  by_cases hv : it.valread ≤ 0
  · by_cases ha : it.accept < 0
    · rw [body_hangup_fail M it s hv ha]
      exact ⟨_, rfl, by simp [readLog], by simp⟩
    · rw [body_hangup_ok M it s hv (not_lt.mp ha)]
      exact ⟨_, rfl, by simp [readLog], by simp⟩
  · have hv' : 0 < it.valread := not_le.mp hv
    by_cases hd : 48 ≤ it.byte ∧ it.byte ≤ 55
    · obtain ⟨_, _, _, _, _, _, ht⟩ := body_set M it s hv' hd.1 hd.2
      rw [ht]
      refine ⟨_, by simp only [List.append_assoc, List.cons_append, List.nil_append]; rfl, ?_, ?_⟩
      · unfold ledLog; split <;> simp [readLog]
      · unfold ledLog; split <;> simp
    · by_cases hq : it.byte = 81
      · rw [body_Q M it s hv' hq]
        exact ⟨[], rfl, rfl, rfl⟩
      · rw [body_quiet M it s ⟨hv', hd, hq⟩]
        by_cases hr : it.byte = 82
        · exact ⟨[.send s.new_socket (tdoChar M s.top) it.send], by simp [quietTrace, hr],
            by simp [readLog], by simp⟩
        · exact ⟨[], by simp [quietTrace, hr], rfl, rfl⟩

theorem serve_loop_trace (M : VTopMain σ) (its : List Iter) :
    ∀ s : Sim σ, ∃ l, (serve_loop M its s).1.trace = s.trace ++ l ∧ l.count .final = 0 := by
  induction its with
  | nil =>
    intro s
    refine ⟨[], ?_, rfl⟩
    unfold serve_loop; split <;> simp
  | cons it rest ih =>
    intro s
    unfold serve_loop
    split
    · exact ⟨[], by simp, rfl⟩
    · obtain ⟨l, hl, _, hc⟩ := body_trace M it s
      split <;> rename_i s1 hb <;> simp only [hb] at hl
      · obtain ⟨l2, hl2, hc2⟩ := ih s1
        refine ⟨.read s.new_socket it.valread it.byte :: l ++ l2, by rw [hl2, hl]; simp, ?_⟩
        simp [List.count_cons, hc, hc2]
      · exact ⟨_, hl, by simp [List.count_cons, hc]⟩
      · exact ⟨_, hl, by simp [List.count_cons, hc]⟩

theorem main_trace_start (M : VTopMain σ) (env : SetupEnv) (its : List Iter) :
    ∃ l, (main M env its).1.trace = (reset_sequence M).trace ++ .socket env.socket :: l := by
  obtain ⟨l, hl⟩ := setup_socket_trace env (reset_sequence M)
  cases hs : setup_socket env (reset_sequence M) with
  | mk s1 o =>
    rw [hs] at hl
    cases o with
    | some c => exact ⟨l, by simp only [main, hs]; exact hl⟩
    | none =>
      obtain ⟨l2, hl2, _⟩ := serve_loop_trace M its (observe_leds M s1)
      have ho : (observe_leds M s1).trace = (reset_sequence M).trace ++ .socket env.socket ::
          (l ++ [.printf (.initial_led (M.io_led1 s1.top % 256) (M.io_led2 s1.top % 256))]) := by
        have hl' : s1.trace = (reset_sequence M).trace ++ .socket env.socket :: l := hl
        simp [observe_leds, emit, hl']
      rw [ho] at hl2
      cases hlp : serve_loop M its (observe_leds M s1) with
      | mk s2 e =>
        rw [hlp] at hl2
        have hl2' : s2.trace = _ := hl2
        cases e with
        | left =>
          refine ⟨l ++ [.printf (.initial_led (M.io_led1 s1.top % 256) (M.io_led2 s1.top % 256))]
            ++ l2 ++ [.final, .delete], ?_⟩
          simp [main, hs, hlp, shutdown, emit, hl2']
        | exited c =>
          refine ⟨l ++ [.printf (.initial_led (M.io_led1 s1.top % 256) (M.io_led2 s1.top % 256))]
            ++ l2, ?_⟩
          simp [main, hs, hlp, hl2']
        | blocked =>
          refine ⟨l ++ [.printf (.initial_led (M.io_led1 s1.top % 256) (M.io_led2 s1.top % 256))]
            ++ l2, ?_⟩
          simp [main, hs, hlp, hl2']

set_option maxRecDepth 20000 in
theorem reset_sequence_trace (M : VTopMain σ) :
    (reset_sequence M).trace =
      [.w_reset 1, .w_TCK 0, .w_TMS 1, .w_TDI 0] ++ repeatEv 10 resetCycle ++ [.w_reset 0] := by
  simp [reset_sequence, boot, ticks, tick, set_reset, set_TCK, set_TMS, set_TDI, set_clock,
    eval, inc_time, emit, repeatEv, resetCycle]

set_option maxRecDepth 20000 in
theorem reset_sequence_time (M : VTopMain σ) :
    (reset_sequence M).main_time = 20 ∧ (reset_sequence M).pins = ⟨1, 0, 0, 1, 0⟩ := by
  simp [reset_sequence, boot, ticks, tick, set_reset, set_TCK, set_TMS, set_TDI, set_clock,
    eval, inc_time, emit]

/-- C7: the reset sequence asserts reset, sets `TCK = 0`, `TMS = 1`, `TDI = 0`,
runs exactly ten cycles of `clock = 0`, evaluate, `clock = 1`, evaluate (twenty
evaluations, all with reset high and the JTAG inputs unchanged, `main_time`
ending at 20), then deasserts reset; the first socket call of `main` comes
only after all of that. -/
theorem startup_sequence (M : VTopMain σ) (env : SetupEnv) (its : List Iter) :
    (reset_sequence M).trace =
      [.w_reset 1, .w_TCK 0, .w_TMS 1, .w_TDI 0] ++ repeatEv 10 resetCycle ++ [.w_reset 0] ∧
    evalLog (reset_sequence M).trace =
      evalLog (repeatEv 10 [.eval ⟨0, 1, 0, 1, 0⟩, .eval ⟨1, 1, 0, 1, 0⟩]) ∧
    (evalLog (reset_sequence M).trace).length = 20 ∧
    (reset_sequence M).main_time = 20 ∧
    (reset_sequence M).pins = ⟨1, 0, 0, 1, 0⟩ ∧
    (reset_sequence M).trace.all (fun e => !isSocketCall e) = true ∧
    ∃ l, (main M env its).1.trace = (reset_sequence M).trace ++ .socket env.socket :: l := by
  refine ⟨reset_sequence_trace M, ?_, ?_, (reset_sequence_time M).1, (reset_sequence_time M).2,
    ?_, main_trace_start M env its⟩
  · rw [reset_sequence_trace]; rfl
  · rw [reset_sequence_trace]; rfl
  · rw [reset_sequence_trace]; rfl

/-- C9: what `setup_socket` does when `socket` fails, and when it succeeds
with descriptor 0.  A failing `socket` (result -1) is not caught by the test
`== 0`: the code goes on to call `setsockopt` on descriptor -1 and the error is
reported there, as "setsockopt" (and were that call to return 0, the code would
go on with `bind`); a successful `socket` that returns descriptor 0 is
reported as "socket failed" and the process exits.  A failing `bind` or
`listen` does exit at its own step, before `accept`. -/
theorem socket_failure_check_compares_with_zero :
    (setup_socket ⟨-1, -1, 0, 0, 4⟩ (boot loopbackDev)).1.trace =
      [.socket (-1), .setsockopt (-1) (-1), .perror .setsockopt, .exit 1] ∧
    (setup_socket ⟨-1, 0, -1, 0, 4⟩ (boot loopbackDev)).1.trace =
      [.socket (-1), .setsockopt (-1) 0, .bind (-1) (-1), .perror .bind_failed, .exit 1] ∧
    setup_socket ⟨0, 0, 0, 0, 4⟩ (boot loopbackDev) =
      ({ boot loopbackDev with trace := [.socket 0, .perror .socket_failed, .exit 1] }, some 1) ∧
    (setup_socket ⟨3, 0, -1, 0, 4⟩ (boot loopbackDev)).1.trace =
      [.socket 3, .setsockopt 3 0, .bind 3 (-1), .perror .bind_failed, .exit 1] ∧
    (setup_socket ⟨3, 0, 0, -1, 4⟩ (boot loopbackDev)).1.trace =
      [.socket 3, .setsockopt 3 0, .bind 3 0, .listen 3 (-1), .perror .listen, .exit 1] := by
  refine ⟨?_, ?_, ?_, ?_, ?_⟩ <;> rfl

/-! ## Disconnects -/

/-- C5: when `read` returns zero or an error and the re-`accept` succeeds, the
body only closes the old session and accepts a new one: ports, model state,
simulation time and LED observation are untouched, no port is written and
nothing is evaluated, so an `'R'` sent first in the new session is answered
with the byte an `'R'` would have got just before the disconnect. -/
theorem disconnect_preserves_device (M : VTopMain σ) (it r : Iter) (s : Sim σ)
    (hv : it.valread ≤ 0) (ha : 0 ≤ it.accept) (hr : 0 < r.valread) (hR : r.byte = 82) :
    (body M it s).2 = .next ∧
    (body M it s).1.pins = s.pins ∧
    (body M it s).1.top = s.top ∧
    (body M it s).1.main_time = s.main_time ∧
    (body M it s).1.new_socket = it.accept ∧
    (body M it s).1.trace = s.trace ++
      [.read s.new_socket it.valread it.byte, .printf .connection_closed,
       .close s.new_socket, .accept s.server_fd it.accept, .printf .reconnected] ∧
    (body M it s).1.trace.filter isDeviceAccess = s.trace.filter isDeviceAccess ∧
    sentBytes (body M r (body M it s).1).1.trace = sentBytes (body M r s).1.trace := by
  rw [body_hangup_ok M it s hv ha]
  refine ⟨rfl, rfl, rfl, rfl, rfl, rfl, ?_, ?_⟩
  · simp [List.filter_append, isDeviceAccess]
  · rw [body_R M r _ hr hR, body_R M r s hr hR]
    simp [sentBytes_append, sentBytes]

/-- C5 on the loopback model: session A sends `'3'` and disconnects, session B
is accepted: the ports still hold `TDI = 1`, `TMS = 1`, `TCK = 0` with reset
low, and `'R'` is answered `'1'` as it would have been before. -/
theorem disconnect_preserves_device_witness :
    (body loopbackDev (hangup 5) (main loopbackDev okEnv [cmdByte 51]).1).1.pins
      = ⟨1, 0, 0, 1, 1⟩ ∧
    sentBytes (body loopbackDev (cmdByte 82)
        (body loopbackDev (hangup 5) (main loopbackDev okEnv [cmdByte 51]).1).1).1.trace =
      sentBytes (body loopbackDev (cmdByte 82) (main loopbackDev okEnv [cmdByte 51]).1).1.trace ∧
    sentBytes (body loopbackDev (cmdByte 82) (main loopbackDev okEnv [cmdByte 51]).1).1.trace
      = [49] :=
  have h := disconnect_preserves_device loopbackDev (hangup 5) (cmdByte 82)
    (main loopbackDev okEnv [cmdByte 51]).1 (by decide) (by decide) (by decide) rfl
  ⟨h.2.1, h.2.2.2.2.2.2.2, rfl⟩

/-- C8, as stated, fails: the result of `send` is not looked at.  After an
`'R'` whose `send` fails with -1 the next socket call is the `read` of the
next command on the same descriptor 4, not `close` and `accept`.  And after a
failed `read`, a failing re-`accept` makes the process exit with status 1. -/
theorem send_failure_not_detected :
    (main loopbackDev okEnv [⟨1, 82, 0, -1⟩, cmdByte 48]).1.trace.filter isSocketCall =
      [.socket 3, .setsockopt 3 0, .bind 3 0, .listen 3 0, .accept 3 4,
       .read 4 1 82, .send 4 48 (-1), .read 4 1 48] ∧
    (main loopbackDev okEnv [⟨1, 82, 0, -1⟩, cmdByte 48]).2 = .blocked ∧
    (main loopbackDev okEnv [hangup (-1)]).2 = .exited 1 := by
  refine ⟨rfl, rfl, rfl⟩

/-- C8, amended: when `read` returns zero or an error, the next socket calls
are `close` of the session and `accept` on the listening socket; if that
`accept` succeeds the loop goes on with the new session, and only if it
fails does the process exit (with `EXIT_FAILURE`).  The result of `send` has
no influence: whatever it is, an `'R'` leaves the loop running on the same
session. -/
theorem read_failure_reconnects (M : VTopMain σ) (it r : Iter) (s : Sim σ)
    (hv : it.valread ≤ 0) (hr : 0 < r.valread) (hR : r.byte = 82) :
    (body M it s).1.trace.filter isSocketCall =
      s.trace.filter isSocketCall ++
        [.read s.new_socket it.valread it.byte, .close s.new_socket,
         .accept s.server_fd it.accept] ∧
    (body M it s).2 = (if it.accept < 0 then .exit EXIT_FAILURE else .next) ∧
    (body M it s).1.new_socket = it.accept ∧
    (body M it s).1.pins = s.pins ∧ (body M it s).1.top = s.top ∧
    body M r s =
      ({ s with
          trace := s.trace ++
            [.read s.new_socket r.valread r.byte,
             .send s.new_socket (if M.io_jtag_TDO s.top ≠ 0 then 49 else 48) r.send] },
       .next) := by
  by_cases ha : it.accept < 0
  · rw [body_hangup_fail M it s hv ha]
    refine ⟨?_, ?_, rfl, rfl, rfl, body_R M r s hr hR⟩
    · simp [List.filter_append, isSocketCall]
    · simp [ha]
  · rw [body_hangup_ok M it s hv (not_lt.mp ha)]
    refine ⟨?_, ?_, rfl, rfl, rfl, body_R M r s hr hR⟩
    · simp [List.filter_append, isSocketCall]
    · simp [ha]

/-- C8 amended, on the loopback model: a disconnect followed by a successful
`accept` returning 5 keeps the loop running on session 5. -/
theorem read_failure_reconnects_witness :
    (body loopbackDev (hangup 5) (main loopbackDev okEnv []).1).2 = .next ∧
    (body loopbackDev (hangup 5) (main loopbackDev okEnv []).1).1.new_socket = 5 :=
  have h := read_failure_reconnects loopbackDev (hangup 5) ⟨1, 82, 0, -1⟩
    (main loopbackDev okEnv []).1 (by decide) (by decide) rfl
  ⟨h.2.1, h.2.2.1⟩

/-! ## The serve loop as a whole -/

theorem pinsAfter_pinsAfter (p : Pins) (a b : Nat) :
    pinsAfter (pinsAfter p a) b = pinsAfter p b := by
  simp [pinsAfter]

theorem body_effect (M : VTopMain σ) (it : Iter) (s : Sim σ) :
    readLog (body M it s).1.trace = readLog s.trace ++ [(it.valread, it.byte)] ∧
    evalLog (body M it s).1.trace =
      evalLog s.trace ++ (if isSignalSet it then [pinsAfter s.pins it.byte] else []) ∧
    (body M it s).1.pins = (if isSignalSet it then pinsAfter s.pins it.byte else s.pins) ∧
    ((body M it s).2 = .brk → 0 < it.valread ∧ it.byte = 81) := by
  by_cases hv : it.valread ≤ 0
  · have hs : isSignalSet it = false := by simp [isSignalSet, hv]
    by_cases ha : it.accept < 0
    · rw [body_hangup_fail M it s hv ha]
      simp [readLog_append, evalLog_append, readLog, evalLog, hs]
    · rw [body_hangup_ok M it s hv (not_lt.mp ha)]
      simp [readLog_append, evalLog_append, readLog, evalLog, hs]
  · have hv' : 0 < it.valread := not_le.mp hv
    by_cases hd : 48 ≤ it.byte ∧ it.byte ≤ 55
    · have hs : isSignalSet it = true := by simp [isSignalSet, hv', hd.1, hd.2]
      obtain ⟨hc, hp, _, _, _, _, ht⟩ := body_set M it s hv' hd.1 hd.2
      rw [ht, hp, hc]
      refine ⟨?_, ?_, by simp [hs], by simp⟩
      · unfold ledLog; split <;> simp [readLog_append, readLog]
      · unfold ledLog; split <;> simp [evalLog_append, evalLog, hs]
    · have hs : isSignalSet it = false := by
        simp only [isSignalSet, Bool.and_eq_false_imp, Bool.and_eq_true, decide_eq_true_eq,
          decide_eq_false_iff_not]
        intro h; exact fun h7 => hd ⟨h.2, h7⟩
      by_cases hq : it.byte = 81
      · rw [body_Q M it s hv' hq]
        simp [readLog_append, evalLog_append, readLog, evalLog, hs, hv', hq]
      · rw [body_quiet M it s ⟨hv', hd, hq⟩]
        by_cases hr : it.byte = 82 <;>
          simp [readLog_append, evalLog_append, readLog, evalLog, hs, quietTrace, hr]

theorem serve_loop_finished (M : VTopMain σ) (its : List Iter) (s : Sim σ)
    (hfin : M.gotFinish s.top = true) : serve_loop M its s = (s, .left) := by
  cases its <;> simp [serve_loop, hfin]

theorem serve_loop_nil (M : VTopMain σ) (s : Sim σ) (hfin : M.gotFinish s.top = false) :
    serve_loop M [] s = (s, .blocked) := by
  simp [serve_loop, hfin]

theorem serve_loop_next (M : VTopMain σ) (it : Iter) (rest : List Iter) (s s1 : Sim σ)
    (hfin : M.gotFinish s.top = false) (hb : body M it s = (s1, .next)) :
    serve_loop M (it :: rest) s = serve_loop M rest s1 := by
  simp [serve_loop, hfin, hb]

theorem serve_loop_brk (M : VTopMain σ) (it : Iter) (rest : List Iter) (s s1 : Sim σ)
    (hfin : M.gotFinish s.top = false) (hb : body M it s = (s1, .brk)) :
    serve_loop M (it :: rest) s = (s1, .left) := by
  simp [serve_loop, hfin, hb]

theorem serve_loop_exit (M : VTopMain σ) (it : Iter) (rest : List Iter) (s s1 : Sim σ)
    (c : Int) (hfin : M.gotFinish s.top = false) (hb : body M it s = (s1, .exit c)) :
    serve_loop M (it :: rest) s = (s1, .exited c) := by
  simp [serve_loop, hfin, hb]

theorem serve_loop_evals (M : VTopMain σ) (its : List Iter) :
    ∀ s : Sim σ, (∀ it ∈ its, 0 < it.valread → it.byte ≠ 81) →
      readLog (serve_loop M its s).1.trace =
        readLog s.trace ++ its.map (fun it => (it.valread, it.byte)) →
      evalLog (serve_loop M its s).1.trace =
        evalLog s.trace ++ (its.filter isSignalSet).map (fun it => pinsAfter s.pins it.byte) ∧
      (serve_loop M its s).1.pins =
        ((its.filter isSignalSet).getLast?.map (fun it => pinsAfter s.pins it.byte)).getD
          s.pins := by
  induction its with
  | nil =>
    intro s _ _
    unfold serve_loop
    split <;> simp
  | cons it rest ih =>
    intro s hQ hproc
    obtain ⟨hrd, hev, hpin, hbrk⟩ := body_effect M it s
    have hQ' : ∀ r ∈ rest, 0 < r.valread → r.byte ≠ 81 :=
      fun r hr => hQ r (List.mem_cons_of_mem _ hr)
    cases hfin : M.gotFinish s.top with
    | true =>
      rw [serve_loop_finished M _ s hfin] at hproc
      simp at hproc
    | false =>
      cases hb : body M it s with
      | mk s1 c =>
        rw [hb] at hrd hev hpin hbrk
        simp only at hrd hev hpin hbrk
        cases c with
        | brk =>
          have := hbrk rfl
          exact absurd this.2 (hQ it (List.mem_cons_self _ _) this.1)
        | exit code =>
          rw [serve_loop_exit M it rest s s1 code hfin hb] at hproc ⊢
          simp only at hproc ⊢
          rw [hrd] at hproc
          have hnil : rest = [] := by
            simpa using hproc
          subst hnil
          by_cases hs : isSignalSet it = true
          · simp [hs, hev, hpin, List.filter_cons]
          · simp [hs, hev, hpin, List.filter_cons]
        | next =>
          rw [serve_loop_next M it rest s s1 hfin hb] at hproc ⊢
          have hproc' : readLog (serve_loop M rest s1).1.trace =
              readLog s1.trace ++ rest.map (fun it => (it.valread, it.byte)) := by
            rw [hproc, hrd]; simp
          obtain ⟨h1, h2⟩ := ih s1 hQ' hproc'
          rw [h1, h2, hev, hpin]
          by_cases hs : isSignalSet it = true
          · simp only [hs, if_true, List.filter_cons, pinsAfter_pinsAfter]
            refine ⟨by simp, ?_⟩
            cases hf : rest.filter isSignalSet with
            | nil => simp
            | cons x xs =>
              obtain ⟨y, hy⟩ : ∃ y, (x :: xs).getLast? = some y :=
                ⟨_, List.getLast?_eq_getLast _ (List.cons_ne_nil _ _)⟩
              simp [List.getLast?_cons_cons, hy]
          · simp [hs, List.filter_cons]

theorem serve_loop_append_of_blocked (M : VTopMain σ) (pre : List Iter) :
    ∀ (s s' : Sim σ), serve_loop M pre s = (s', .blocked) →
      M.gotFinish s'.top = false ∧ ∀ more, serve_loop M (pre ++ more) s = serve_loop M more s' := by
  induction pre with
  | nil =>
    intro s s' h
    cases hfin : M.gotFinish s.top with
    | true => rw [serve_loop_finished M _ s hfin] at h; simp at h
    | false =>
      rw [serve_loop_nil M s hfin] at h
      have hs : s = s' := (Prod.mk.inj h).1
      subst hs
      exact ⟨hfin, fun more => rfl⟩
  | cons it rest ih =>
    intro s s' h
    cases hfin : M.gotFinish s.top with
    | true => rw [serve_loop_finished M _ s hfin] at h; simp at h
    | false =>
      cases hb : body M it s with
      | mk s1 c =>
        cases c with
        | brk => rw [serve_loop_brk M it rest s s1 hfin hb] at h; simp at h
        | exit code => rw [serve_loop_exit M it rest s s1 code hfin hb] at h; simp at h
        | next =>
          rw [serve_loop_next M it rest s s1 hfin hb] at h
          obtain ⟨h1, h2⟩ := ih s1 s' h
          refine ⟨h1, fun more => ?_⟩
          rw [List.cons_append, serve_loop_next M it _ s s1 hfin hb]
          exact h2 more

theorem serve_loop_left (M : VTopMain σ) (its : List Iter) :
    ∀ s : Sim σ, (serve_loop M its s).2 = .left →
      M.gotFinish (serve_loop M its s).1.top = true ∨
      ∃ t fd v, 0 < v ∧ (serve_loop M its s).1.trace = t ++ [.read fd v 81] := by
  induction its with
  | nil =>
    intro s h
    cases hfin : M.gotFinish s.top with
    | true => rw [serve_loop_finished M _ s hfin]; exact Or.inl hfin
    | false => rw [serve_loop_nil M s hfin] at h; simp at h
  | cons it rest ih =>
    intro s h
    cases hfin : M.gotFinish s.top with
    | true => rw [serve_loop_finished M _ s hfin]; exact Or.inl hfin
    | false =>
      obtain ⟨_, _, _, hbrk⟩ := body_effect M it s
      cases hb : body M it s with
      | mk s1 c =>
        cases c with
        | exit code => rw [serve_loop_exit M it rest s s1 code hfin hb] at h; simp at h
        | next =>
          rw [serve_loop_next M it rest s s1 hfin hb] at h ⊢
          exact ih s1 h
        | brk =>
          rw [hb] at hbrk
          obtain ⟨hv, hq⟩ := hbrk rfl
          have hbq := body_Q M it s hv hq
          rw [hb] at hbq
          rw [serve_loop_brk M it rest s s1 hfin hb]
          right
          refine ⟨s.trace, s.new_socket, it.valread, hv, ?_⟩
          have : s1 = _ := (Prod.mk.inj hbq).1
          rw [this, hq]

theorem setup_socket_pins (env : SetupEnv) (s : Sim σ) :
    (setup_socket env s).1.pins = s.pins ∧ (setup_socket env s).1.top = s.top := by
  unfold setup_socket
  simp only [fail, emit]
  repeat' split
  all_goals exact ⟨rfl, rfl⟩

theorem setup_socket_inv (env : SetupEnv) (s : Sim σ) :
    ∃ l, (setup_socket env s).1.trace = s.trace ++ l ∧ l.count .final = 0 ∧
      evalLog l = [] ∧ readLog l = [] ∧ sentBytes l = [] := by
  unfold setup_socket
  simp only [fail, emit]
  repeat' split
  all_goals
    simp only [List.append_assoc, List.singleton_append, List.cons_append, List.nil_append]
    exact ⟨_, rfl, by simp, by simp [evalLog], by simp [readLog], by simp [sentBytes]⟩

/-- The state in which the serve loop is entered when `setup_socket` returned
in state `s1`. -/
theorem observe_leds_inv (M : VTopMain σ) (env : SetupEnv) (s1 : Sim σ) (o : Option Int)
    (hs : setup_socket env (reset_sequence M) = (s1, o)) :
    (observe_leds M s1).pins = ⟨1, 0, 0, 1, 0⟩ ∧
    readLog (observe_leds M s1).trace = [] ∧
    sentBytes (observe_leds M s1).trace = [] ∧
    evalLog (observe_leds M s1).trace = evalLog (reset_sequence M).trace ∧
    (observe_leds M s1).trace.count .final = 0 ∧
    s1.pins = ⟨1, 0, 0, 1, 0⟩ ∧ readLog s1.trace = [] ∧
    evalLog s1.trace = evalLog (reset_sequence M).trace := by
  obtain ⟨hp, _⟩ := setup_socket_pins env (reset_sequence M)
  obtain ⟨l, hl, hc, he, hr, hsb⟩ := setup_socket_inv env (reset_sequence M)
  rw [hs] at hp hl
  have hrt := reset_sequence_trace M
  have hr0 : readLog (reset_sequence M).trace = [] := by rw [hrt]; rfl
  have hs0 : sentBytes (reset_sequence M).trace = [] := by rw [hrt]; rfl
  have hc0 : (reset_sequence M).trace.count .final = 0 := by rw [hrt]; rfl
  have hp0 := (reset_sequence_time M).2
  clear hrt hs
  generalize reset_sequence M = r0 at *
  have hp' : s1.pins = r0.pins := hp
  have hl' : s1.trace = r0.trace ++ l := hl
  refine ⟨?_, ?_, ?_, ?_, ?_, ?_, ?_, ?_⟩
  · simp [observe_leds, emit, hp', hp0]
  · simp [observe_leds, emit, hl', readLog_append, hr, hr0, readLog]
  · simp [observe_leds, emit, hl', sentBytes_append, hsb, hs0, sentBytes]
  · simp [observe_leds, emit, hl', evalLog_append, he, evalLog]
  · simp [observe_leds, emit, hl', hc, hc0]
  · simp [hp', hp0]
  · simp [hl', readLog_append, hr, hr0]
  · simp [hl', evalLog_append, he]

theorem main_of_setup_fail (M : VTopMain σ) (env : SetupEnv) (its : List Iter) (s1 : Sim σ)
    (c : Int) (hs : setup_socket env (reset_sequence M) = (s1, some c)) :
    main M env its = (s1, .exited c) := by
  simp [main, hs]

theorem main_of_setup_ok (M : VTopMain σ) (env : SetupEnv) (its : List Iter) (s1 s2 : Sim σ)
    (e : LoopEnd) (hs : setup_socket env (reset_sequence M) = (s1, none))
    (hl : serve_loop M its (observe_leds M s1) = (s2, e)) :
    main M env its =
      match e with
      | .left => (shutdown s2, .returned 0)
      | .exited c => (s2, .exited c)
      | .blocked => (s2, .blocked) := by
  cases e <;> simp [main, hs, hl]

theorem evalLog_reset_sequence (M : VTopMain σ) :
    evalLog (reset_sequence M).trace = evalLog (repeatEv 10 resetCycle) := by
  rw [reset_sequence_trace]; rfl

/-- C4: if the answers `its` contain no successfully read `'Q'` and all of
them were read by the serve loop, then after the twenty evaluations of the
reset sequence the model is evaluated exactly once for each successfully read
byte in `'0'..'7'`, in the order read, each time on ports whose
(TCK, TMS, TDI) are the three bits decoded from that byte (system clock high,
reset low); and the ports at the end hold the triple of the last such byte, or
`TCK = 0`, `TMS = 1`, `TDI = 0` when there is none. -/
theorem signal_sets_applied_in_order (M : VTopMain σ) (env : SetupEnv) (its : List Iter)
    (hQ : ∀ it ∈ its, 0 < it.valread → it.byte ≠ 81)
    (hproc : readLog (main M env its).1.trace = its.map (fun it => (it.valread, it.byte))) :
    evalLog (main M env its).1.trace =
      evalLog (repeatEv 10 resetCycle) ++
        (its.filter isSignalSet).map (fun it =>
          (⟨1, 0, ((it.byte - 48) >>> 2) &&& 1, ((it.byte - 48) >>> 1) &&& 1,
            (it.byte - 48) &&& 1⟩ : Pins)) ∧
    jtagTriple (main M env its).1.pins =
      ((its.filter isSignalSet).getLast?.map (fun it =>
          (((it.byte - 48) >>> 2) &&& 1, ((it.byte - 48) >>> 1) &&& 1,
            (it.byte - 48) &&& 1))).getD (0, 1, 0) := by
  cases hs : setup_socket env (reset_sequence M) with
  | mk s1 o =>
    obtain ⟨hp0, hr0, _, he0, _, hp1, hr1, he1⟩ := observe_leds_inv M env s1 o hs
    cases o with
    | some c =>
      rw [main_of_setup_fail M env its s1 c hs] at hproc ⊢
      simp only at hproc ⊢
      rw [hr1] at hproc
      have hnil : its = [] := by simpa using hproc.symm
      subst hnil
      simp [he1, evalLog_reset_sequence, hp1, jtagTriple]
    | none =>
      cases hl : serve_loop M its (observe_leds M s1) with
      | mk s2 e =>
        have hm := main_of_setup_ok M env its s1 s2 e hs hl
        have hrd : readLog (main M env its).1.trace = readLog s2.trace := by
          rw [hm]; cases e <;> simp [shutdown, emit, readLog_append, readLog]
        have hev : evalLog (main M env its).1.trace = evalLog s2.trace := by
          rw [hm]; cases e <;> simp [shutdown, emit, evalLog_append, evalLog]
        have hpn : (main M env its).1.pins = s2.pins := by
          rw [hm]; cases e <;> simp [shutdown, emit]
        have hproc' : readLog (serve_loop M its (observe_leds M s1)).1.trace =
            readLog (observe_leds M s1).trace ++ its.map (fun it => (it.valread, it.byte)) := by
          rw [hl, hr0, ← hrd, hproc]; simp
        obtain ⟨h1, h2⟩ := serve_loop_evals M its (observe_leds M s1) hQ hproc'
        rw [hl] at h1 h2
        simp only at h1 h2
        rw [hev, hpn, h1, h2, he0, evalLog_reset_sequence, hp0]
        constructor
        · simp [pinsAfter]
        · cases (its.filter isSignalSet).getLast? <;> simp [jtagTriple, pinsAfter]

/-- C4 on the loopback model: `'3'`, a disconnect, `'R'`, `'4'`, `'6'` give
three evaluations after the reset sequence, on the triples of `'3'`, `'4'`,
`'6'` in that order, and the ports end on the triple of `'6'`. -/
theorem signal_sets_applied_in_order_witness :
    evalLog (main loopbackDev okEnv
        [cmdByte 51, hangup 5, cmdByte 82, cmdByte 52, cmdByte 54]).1.trace =
      evalLog (repeatEv 10 resetCycle) ++
        [⟨1, 0, 0, 1, 1⟩, ⟨1, 0, 1, 0, 0⟩, ⟨1, 0, 1, 1, 0⟩] ∧
    jtagTriple (main loopbackDev okEnv
        [cmdByte 51, hangup 5, cmdByte 82, cmdByte 52, cmdByte 54]).1.pins = (1, 1, 0) :=
  signal_sets_applied_in_order loopbackDev okEnv
    [cmdByte 51, hangup 5, cmdByte 82, cmdByte 52, cmdByte 54] (by decide) rfl

/-- C6: if the serve loop has consumed the answers `pre` and is waiting in
`read`, and the next byte read is `'Q'`, then whatever answers `post` follow,
`main` reads nothing more: the ports, the model state, the evaluations and
the bytes sent are those after `pre`, `'Q'` itself sends nothing, the model is
finalized exactly once, and `main` returns 0. -/
theorem quit_stops_processing (M : VTopMain σ) (env : SetupEnv) (pre post : List Iter)
    (q : Iter) (hv : 0 < q.valread) (hq : q.byte = 81)
    (hpre : (main M env pre).2 = .blocked) :
    (main M env (pre ++ q :: post)).2 = .returned 0 ∧
    (main M env (pre ++ q :: post)).1.pins = (main M env pre).1.pins ∧
    (main M env (pre ++ q :: post)).1.top = (main M env pre).1.top ∧
    (main M env (pre ++ q :: post)).1.trace =
      (main M env pre).1.trace ++
        [.read (main M env pre).1.new_socket q.valread 81, .final, .delete] ∧
    evalLog (main M env (pre ++ q :: post)).1.trace = evalLog (main M env pre).1.trace ∧
    sentBytes (main M env (pre ++ q :: post)).1.trace = sentBytes (main M env pre).1.trace ∧
    readLog (main M env (pre ++ q :: post)).1.trace =
      readLog (main M env pre).1.trace ++ [(q.valread, 81)] ∧
    (main M env (pre ++ q :: post)).1.trace.count .final = 1 := by
  cases hs : setup_socket env (reset_sequence M) with
  | mk s1 o =>
    obtain ⟨_, _, _, _, hc0, _, _, _⟩ := observe_leds_inv M env s1 o hs
    cases o with
    | some c =>
      rw [main_of_setup_fail M env pre s1 c hs] at hpre
      simp at hpre
    | none =>
      cases hl : serve_loop M pre (observe_leds M s1) with
      | mk s2 e =>
        have hm := main_of_setup_ok M env pre s1 s2 e hs hl
        rw [hm] at hpre
        cases e with
        | left => simp at hpre
        | exited c => simp at hpre
        | blocked =>
          simp only at hm
          obtain ⟨l, hl2, hcl⟩ := serve_loop_trace M pre (observe_leds M s1)
          rw [hl] at hl2
          have hc2 : s2.trace.count .final = 0 := by
            have : s2.trace = (observe_leds M s1).trace ++ l := hl2
            rw [this, List.count_append, hc0, hcl]
          obtain ⟨hfin, happ⟩ := serve_loop_append_of_blocked M pre (observe_leds M s1) s2 hl
          have hbq := body_Q M q s2 hv hq
          have hl' := happ (q :: post)
          rw [serve_loop_brk M q post s2 _ hfin hbq] at hl'
          have hm' := main_of_setup_ok M env (pre ++ q :: post) s1 _ .left hs hl'
          simp only at hm'
          rw [hm', hm]
          simp [shutdown, emit, hq, evalLog_append, sentBytes_append, readLog_append, evalLog,
            sentBytes, readLog, List.count_append, hc2]

/-- C6 on the loopback model: after `'5'` and `'R'`, a `'Q'` followed by `'0'`
and `'R'` ends `main` with the ports of `'5'`, one byte sent and one
`final`. -/
theorem quit_stops_processing_witness :
    (main loopbackDev okEnv
        ([cmdByte 53, cmdByte 82] ++ cmdByte 81 :: [cmdByte 48, cmdByte 82])).2 = .returned 0 ∧
    sentBytes (main loopbackDev okEnv
        ([cmdByte 53, cmdByte 82] ++ cmdByte 81 :: [cmdByte 48, cmdByte 82])).1.trace =
      sentBytes (main loopbackDev okEnv [cmdByte 53, cmdByte 82]).1.trace ∧
    (main loopbackDev okEnv
        ([cmdByte 53, cmdByte 82] ++ cmdByte 81 :: [cmdByte 48, cmdByte 82])).1.trace.count
      .final = 1 :=
  have h := quit_stops_processing loopbackDev okEnv [cmdByte 53, cmdByte 82]
    [cmdByte 48, cmdByte 82] (cmdByte 81) (by decide) rfl rfl
  ⟨h.1, h.2.2.2.2.2.1, h.2.2.2.2.2.2.2⟩

/-- C10, as stated, fails: on a model that raises the finish flag when
evaluated with `TCK` high, the byte `'4'` ends the serve loop and the model
is finalized, although no `'Q'` was read. -/
theorem finish_flag_ends_loop_without_quit :
    (main finishingDev okEnv [cmdByte 52]).2 = .returned 0 ∧
    readLog (main finishingDev okEnv [cmdByte 52]).1.trace = [(1, 52)] ∧
    (main finishingDev okEnv [cmdByte 52]).1.trace.count .final = 1 := by
  refine ⟨rfl, rfl, ?_⟩
  decide

/-- C10, amended: `main` returns (serve loop left, model finalized) only with
status 0 and only in two ways: the last action before `final` was the
successful `read` of a `'Q'`, or the loop test found the model's finish flag
raised.  No other byte and no read outcome ends the loop. -/
theorem loop_left_only_by_quit_or_finish (M : VTopMain σ) (env : SetupEnv) (its : List Iter)
    (c : Int) (h : (main M env its).2 = .returned c) :
    c = 0 ∧
    (M.gotFinish (main M env its).1.top = true ∨
      ∃ t fd v, 0 < v ∧ (main M env its).1.trace = t ++ [.read fd v 81, .final, .delete]) := by
  cases hs : setup_socket env (reset_sequence M) with
  | mk s1 o =>
    cases o with
    | some c' =>
      rw [main_of_setup_fail M env its s1 c' hs] at h
      simp at h
    | none =>
      cases hl : serve_loop M its (observe_leds M s1) with
      | mk s2 e =>
        have hm := main_of_setup_ok M env its s1 s2 e hs hl
        rw [hm] at h ⊢
        cases e with
        | exited c' => simp at h
        | blocked => simp at h
        | left =>
          simp only at h ⊢
          refine ⟨by simpa using h.symm, ?_⟩
          have hleft : (serve_loop M its (observe_leds M s1)).2 = .left := by rw [hl]
          rcases serve_loop_left M its (observe_leds M s1) hleft with hf | ⟨t, fd, v, hv, ht⟩
          · left; rw [hl] at hf; exact hf
          · right
            rw [hl] at ht
            refine ⟨t, fd, v, hv, ?_⟩
            have ht' : s2.trace = t ++ [.read fd v 81] := ht
            simp [shutdown, emit, ht']

/-- C10 amended, on the loopback model, which never finishes: `'Q'` makes
`main` return 0 right after the `read`. -/
theorem loop_left_only_by_quit_or_finish_witness :
    (main loopbackDev okEnv [cmdByte 49, cmdByte 81]).2 = .returned 0 ∧
    (loopbackDev.gotFinish (main loopbackDev okEnv [cmdByte 49, cmdByte 81]).1.top = true ∨
      ∃ t fd v, 0 < v ∧
        (main loopbackDev okEnv [cmdByte 49, cmdByte 81]).1.trace =
          t ++ [.read fd v 81, .final, .delete]) :=
  ⟨rfl, (loop_left_only_by_quit_or_finish loopbackDev okEnv [cmdByte 49, cmdByte 81] 0 rfl).2⟩

end SimMain
